import Mathlib

/-!
Verification of the manga-reader patch compositing pipeline.

The development shallowly embeds the compositing core of the repository:
the merge handler (src/manga-ocr/src/handlers/merge.py), the merge endpoint
of the server (src/manga-ocr/src/server.py), the patch generation handler
(src/manga-ocr/src/handlers/patch.py), the text cleaner strategies
(src/manga-ocr/src/patch_generator/text_cleaner.py), the text renderer
(src/manga-ocr/src/patch_generator/text_renderer.py) and the neural
inpainting wrapper (src/manga-ocr/src/patch_generator/lama.py).

External collaborators (cv2 decode and resize, PIL paste and glyph
rasterization, the neural generator, cv2 fillPoly and inpaint) are taken
as parameters of the embedding; everything the repository itself computes
is translated directly from the Python source. Floating point arithmetic
of numpy and torch is modelled by exact rational arithmetic, and the
uint8 casts by truncation, as in the source.
-/

namespace MangaReader

/-- A raster image: height, width, channel count, and a pixel function
taking row, column and channel to an 8-bit sample value. -/
structure Img where
  h : Nat
  w : Nat
  c : Nat
  pix : Nat → Nat → Nat → Nat

/-- Rounding of a rational as the builtin round of Python 3 rounds a float:
to the nearest integer, ties to the even integer. Used wherever the source
writes int(round(v)). -/
def pyRound (q : ℚ) : Int :=
  if q - (⌊q⌋ : ℚ) < 1/2 then ⌊q⌋
  else if 1/2 < q - (⌊q⌋ : ℚ) then ⌊q⌋ + 1
  else if ⌊q⌋ % 2 = 0 then ⌊q⌋ else ⌊q⌋ + 1

namespace Handlers

/-- One overlay of a merge request, from the PatchOverlay pydantic model in
src/manga-ocr/src/response_models.py. -/
structure PatchOverlay where
  patchImageBase64 : String
  x : ℚ
  y : ℚ
  width : Option Nat
  height : Option Nat

/-- A merge request, from the MergePatchesRequest pydantic model. -/
structure MergePatchesRequest where
  pageImageBase64 : String
  patches : List PatchOverlay

/-- Failure cases of the merge handler: the ValueError raised by
decode_base64_image for the page or for one of the patches, both of which
escape to the except clause of merge_patches. -/
inductive MergeErr where
  | pageDecodeFailed : MergeErr
  | patchDecodeFailed : MergeErr
deriving DecidableEq

/-- External collaborators of the merge handler: cv2.imdecode behind
decode_base64_image (None becomes Option.none), and cv2.resize. -/
structure MergeEnv where
  decode : String → Option Img
  resize : Img → Nat → Nat → Img

/-- The BGR to BGRA conversion at the top of the overlay loop of
merge_patches: a 3-channel image gains an alpha channel set to 255,
a 4-channel image is kept as is. -/
def toBGRA (img : Img) : Img :=
  if img.c = 3 then
    { h := img.h, w := img.w, c := 4,
      pix := fun y x ch => if ch = 3 then 255 else img.pix y x ch }
  else img

/-- The resize step of the overlay loop: the source resizes only when both
width and height are truthy, so a missing value or a zero skips the resize. -/
def resizeStep (env : MergeEnv) (img : Img) (p : PatchOverlay) : Img :=
  match p.width, p.height with
  | some w, some ht => if w ≠ 0 ∧ ht ≠ 0 then env.resize img w ht else img
  | _, _ => img

/-- The decoded, BGRA-converted and resized form of one overlay, or none
when the overlay bytes do not decode. -/
def effPatch (env : MergeEnv) (p : PatchOverlay) : Option Img :=
  (env.decode p.patchImageBase64).map (fun i => resizeStep env (toBGRA i) p)

/-- The alpha blend of merge_patches, written over the placed rectangle:
alpha is the patch alpha sample over 255, and the blended sample is
alpha times the patch plus one minus alpha times the page, truncated to
an 8-bit integer exactly as the astype to uint8 truncates. -/
def blendAt (page patch : Img) (x y : Nat) : Img :=
  { page with pix := fun Y X ch =>
      if y ≤ Y ∧ Y < y + patch.h ∧ x ≤ X ∧ X < x + patch.w ∧ ch < 4 then
        (patch.pix (Y - y) (X - x) 3 * patch.pix (Y - y) (X - x) ch
          + (255 - patch.pix (Y - y) (X - x) 3) * page.pix Y X ch) / 255
      else page.pix Y X ch }

/-- One iteration of the overlay loop of merge_patches: decode the patch
(a failure raises and aborts the merge), convert to BGRA, resize if asked,
round the placement, skip the patch when its rectangle leaves the page
bounds, otherwise alpha blend it into the page. -/
def applyPatch (env : MergeEnv) (pg : Img) (p : PatchOverlay) : Except MergeErr Img :=
  match env.decode p.patchImageBase64 with
  | none => .error .patchDecodeFailed
  | some i =>
    if pyRound p.x < 0 ∨ pyRound p.y < 0 ∨
        pyRound p.x + ((resizeStep env (toBGRA i) p).w : Int) > (pg.w : Int) ∨
        pyRound p.y + ((resizeStep env (toBGRA i) p).h : Int) > (pg.h : Int) then
      .ok pg
    else
      .ok (blendAt pg (resizeStep env (toBGRA i) p)
        (pyRound p.x).toNat (pyRound p.y).toNat)

/-- The overlay loop of merge_patches over the request patch list. -/
def overlayLoop (env : MergeEnv) (pg : Img) : List PatchOverlay → Except MergeErr Img
  | [] => .ok pg
  | p :: ps =>
    match applyPatch env pg p with
    | .error e => .error e
    | .ok pg2 => overlayLoop env pg2 ps

/-- The BGRA to BGR conversion at the end of merge_patches: the alpha
channel is dropped, the color samples are kept. -/
def bgra2bgr (img : Img) : Img :=
  { img with c := 3 }

/-- The merge handler of src/manga-ocr/src/handlers/merge.py, up to the
final jpg encoding: decode the page, convert it to BGRA, run the overlay
loop, convert back to BGR. A page or patch decode failure surfaces as an
error, as the ValueError of decode_base64_image does. -/
def merge_core (env : MergeEnv) (req : MergePatchesRequest) : Except MergeErr Img :=
  match env.decode req.pageImageBase64 with
  | none => .error .pageDecodeFailed
  | some page =>
    match overlayLoop env (toBGRA page) req.patches with
    | .error e => .error e
    | .ok merged => .ok (bgra2bgr merged)

/-- Specification-side reading of the bounds check of the overlay loop:
an overlay is in bounds of a W by H page when it decodes and its placed
rectangle, with the corner rounded as the source rounds it, lies inside
the page. -/
def inBoundsB (env : MergeEnv) (W H : Nat) (p : PatchOverlay) : Bool :=
  match effPatch env p with
  | none => false
  | some e =>
    decide (0 ≤ pyRound p.x ∧ 0 ≤ pyRound p.y ∧
      pyRound p.x + e.w ≤ (W : Int) ∧ pyRound p.y + e.h ≤ (H : Int))

end Handlers

namespace Server

/-- External collaborators of the merge-patches endpoint of server.py:
cv2.imdecode for the page, the format detection that PIL Image.open
performs on the page bytes (already lowercased, none when PIL reports no
format), and the body of the per-overlay try block (decode, optional
LANCZOS resize, PIL paste), which never aborts the loop because its
exceptions are caught and the overlay skipped. -/
structure SrvEnv where
  decode : String → Option Img
  detectFmt : String → Option String
  applyOverlay : Img → Handlers.PatchOverlay → Img

/-- The encode dispatch at the end of the merge-patches endpoint: a png
page re-encodes as png, a jpeg or jpg page as jpg at quality 95, and any
other detected format falls back to jpg at quality 95. The second
component is the IMWRITE_JPEG_QUALITY parameter when one is passed. -/
def chooseEncoding (fmt : String) : String × Option Nat :=
  if fmt = "png" then ("png", none)
  else if fmt = "jpeg" ∨ fmt = "jpg" then ("jpg", some 95)
  else ("jpg", some 95)

/-- The overlay loop of the merge-patches endpoint of server.py. -/
def srvOverlayLoop (env : SrvEnv) (pg : Img) : List Handlers.PatchOverlay → Img
  | [] => pg
  | p :: ps => srvOverlayLoop env (env.applyOverlay pg p) ps

/-- The merge-patches endpoint of server.py, up to byte encoding: decode
the page, detect its container format defaulting to jpeg, run the overlay
loop, and choose the output encoding from the detected format. -/
def server_merge_core (env : SrvEnv) (req : Handlers.MergePatchesRequest) :
    Except Handlers.MergeErr (Img × String × Option Nat) :=
  match env.decode req.pageImageBase64 with
  | none => .error .pageDecodeFailed
  | some page =>
    let fmt := (env.detectFmt req.pageImageBase64).getD "jpeg"
    let merged := srvOverlayLoop env page req.patches
    .ok (merged, chooseEncoding fmt)

end Server

/-- A text cleaner strategy instance, from text_cleaner.py: the OpenCV
cleaner carries a threshold, a dilation iteration count and an inpaint
radius; the LaMa cleaner carries a threshold and a dilation iteration
count (its model handle is an external collaborator held in the
environment). -/
inductive Cleaner where
  | opencv (threshold dilate_iters inpaint_radius : Nat) : Cleaner
  | lama (threshold dilate_iters : Nat) : Cleaner
deriving DecidableEq

/-- A Python exception the embedding tracks: the AttributeError a read of
a missing module attribute raises. -/
inductive PyErr where
  | attributeError : PyErr
deriving DecidableEq

/-- The cleaner_mode attribute read of handlers/patch.py on its state
module: the handler imports src/state.py, which defines the OCR,
AnimeLaMa and YOLO fields but no cleaner_mode, so the read raises
AttributeError. -/
def stateCleanerMode : Except PyErr String := .error .attributeError

/-- The text_cleaner attribute read of handlers/patch.py on its state
module: src/state.py defines no text_cleaner either, so the read raises
AttributeError. -/
def stateTextCleaner : Except PyErr (Option Cleaner) := .error .attributeError

/-- The branch logic of _get_cleaner in handlers/patch.py, as a function
of the two attribute values it reads: when the mode is lama and the
configured cleaner is a LamaCleaner, a fresh LamaCleaner with the
requested threshold (and the constructor default of 2 dilation
iterations); in every other case the configured cleaner unchanged, so its
own threshold is used. Reachable only after the attribute reads succeed,
which on the actual state module they never do. -/
def _get_cleaner_body (mode : String) (cl : Option Cleaner) (threshold : Nat) :
    Option Cleaner :=
  match cl with
  | some (Cleaner.lama _ _) =>
    if mode = "lama" then some (Cleaner.lama threshold 2) else cl
  | _ => cl

/-- The _get_cleaner helper of src/manga-ocr/src/handlers/patch.py: its
condition first reads state.cleaner_mode, then state.text_cleaner —
attributes the state module it imports (src/state.py) does not define —
so every call raises AttributeError before any cleaner is produced. -/
def _get_cleaner (threshold : Nat) : Except PyErr (Option Cleaner) := do
  let mode ← stateCleanerMode
  let cl ← stateTextCleaner
  pure (_get_cleaner_body mode cl threshold)

/-- The fixed-point grayscale conversion of cv2 cvtColor BGR2GRAY:
the 0.299, 0.587, 0.114 weights scaled by 2 to the 14, with rounding. -/
def bgr2gray (b g r : Nat) : Nat :=
  (r * 4899 + g * 9617 + b * 1868 + 8192) / 16384

/-- The grayscale sample of an image at one pixel, reading the B, G and R
channels in the layout cv2 uses. -/
def grayAt (img : Img) (y x : Nat) : Nat :=
  bgr2gray (img.pix y x 0) (img.pix y x 1) (img.pix y x 2)

/-- cv2.threshold with THRESH_BINARY_INV and maxval 255: samples above the
threshold map to 0, samples at or below it to 255. -/
def threshINV (t v : Nat) : Nat := if v > t then 0 else 255

/-- The base removal mask of OpenCVCleaner.clean: the binary inverse
threshold of the grayscale image. -/
def opencvMask0 (t : Nat) (img : Img) : Nat → Nat → Nat :=
  fun y x => threshINV t (grayAt img y x)

/-- The nine cells of the 3 by 3 structuring element centered at a pixel,
with clamping at the image origin. -/
def neighbors (y x : Nat) : List (Nat × Nat) :=
  [(y - 1, x - 1), (y - 1, x), (y - 1, x + 1),
   (y, x - 1), (y, x), (y, x + 1),
   (y + 1, x - 1), (y + 1, x), (y + 1, x + 1)]

/-- One cv2.dilate pass with a 3 by 3 kernel of ones: the maximum of the
mask over the in-bounds cells of the structuring element. -/
def dilateOnce (h w : Nat) (m : Nat → Nat → Nat) : Nat → Nat → Nat :=
  fun y x =>
    (neighbors y x).foldl
      (fun acc p => max acc (if p.1 < h ∧ p.2 < w then m p.1 p.2 else 0)) 0

/-- Iterated dilation, as the iterations argument of cv2.dilate. -/
def dilateN (h w : Nat) : Nat → (Nat → Nat → Nat) → (Nat → Nat → Nat)
  | 0, m => m
  | n + 1, m => dilateN h w n (dilateOnce h w m)

/-- OpenCVCleaner.clean of text_cleaner.py: grayscale, binary inverse
threshold, dilation, then cv2.inpaint with TELEA over the mask. The
inpaint call is the external collaborator passed as a parameter, applied
to the image, the dilated mask and the radius. -/
def opencv_clean (inpaint : Img → (Nat → Nat → Nat) → Nat → Img)
    (t d r : Nat) (img : Img) : Img :=
  inpaint img (dilateN img.h img.w d (opencvMask0 t img)) r

/-- The fixed font path table of get_font_path in text_renderer.py, with
the dictionary get defaulting an unknown family to the regular font. -/
def font_paths (family : String) : String :=
  if family = "regular" then "/app/fonts/animeace.ttf"
  else if family = "bold" then "/app/fonts/animeace_b.ttf"
  else if family = "italic" then "/app/fonts/animeace_i.ttf"
  else "/app/fonts/animeace.ttf"

/-- The failure cases of font handling: the FileNotFoundError of
get_font_path, and a truetype load failure in the path that has no
fallback. -/
inductive FontErr where
  | fontNotFound : FontErr
  | truetypeFailed : FontErr
deriving DecidableEq

/-- A loaded font: either a truetype font from a path at a size, or the
builtin default font of PIL ImageFont.load_default. -/
inductive Font where
  | truetype (path : String) (size : Nat) : Font
  | default : Font
deriving DecidableEq

/-- get_font_path of text_renderer.py: look the family up in the fixed
table, return the path when the file exists, raise FileNotFoundError
otherwise. The existence test on the filesystem is the environment
parameter. -/
def get_font_path (fexists : String → Bool) (family : String) :
    Except FontErr String :=
  let p := font_paths family
  if fexists p then .ok p else .error .fontNotFound

/-- The font loading of _render_text_on_rgba in handlers/patch.py:
get_font_path first (its FileNotFoundError escapes), then
ImageFont.truetype inside a try whose except substitutes
ImageFont.load_default. The truetype success test is the environment
parameter. -/
def selectFontRGBA (fexists ttOk : String → Bool) (family : String)
    (size : Nat) : Except FontErr Font :=
  match get_font_path fexists family with
  | .error e => .error e
  | .ok p => if ttOk p then .ok (Font.truetype p size) else .ok Font.default

/-- The font loading of render_text in text_renderer.py: get_font_path
then ImageFont.truetype with no try around it, so either failure escapes. -/
def selectFontBGR (fexists ttOk : String → Bool) (family : String)
    (size : Nat) : Except FontErr Font :=
  match get_font_path fexists family with
  | .error e => .error e
  | .ok p => if ttOk p then .ok (Font.truetype p size) else .error .truetypeFailed

/-- The color a multiline_text draw pass uses: the stroke color or the
text color of the request. -/
inductive Ink where
  | strokeInk : Ink
  | textInk : Ink
deriving DecidableEq

/-- The integers from minus sw to sw in loop order, as the Python
range(-sw, sw + 1) iterates them. -/
def offsetRange (sw : Nat) : List Int :=
  (List.range (2 * sw + 1)).map (fun i : Nat => (i : Int) - (sw : Int))

/-- The stroke offsets of render_text in text_renderer.py and of
_render_text_on_rgba in handlers/patch.py: every pair (dx, dy) of the
square from minus sw to sw, in nested loop order, with (0, 0) removed by
the guard inside the loops. -/
def squareOffsets (sw : Nat) : List (Int × Int) :=
  (offsetRange sw).flatMap (fun dx =>
    (offsetRange sw).filterMap (fun dy =>
      if dx = 0 ∧ dy = 0 then none else some (dx, dy)))

/-- The stroke offsets of the polygon rendering path of the
generate-patch endpoint in server.py: dx and dy each range over the
three-element list minus sw, 0, sw, with (0, 0) skipped. -/
def serverStrokeOffsets (sw : Nat) : List (Int × Int) :=
  [-(sw : Int), 0, (sw : Int)].flatMap (fun dx =>
    [-(sw : Int), 0, (sw : Int)].filterMap (fun dy =>
      if dx = 0 ∧ dy = 0 then none else some (dx, dy)))

/-- The sequence of multiline_text draw passes render_text issues, as
offsets from the centered origin: the stroke passes when a stroke color is
present and the width is positive, then the single final pass at the
origin in the text color. -/
def render_text_draw_ops (strokeColor : Option String) (sw : Nat) :
    List (Int × Int × Ink) :=
  (match strokeColor with
   | some _ =>
     if 0 < sw then (squareOffsets sw).map (fun d => (d.1, d.2, Ink.strokeInk))
     else []
   | none => []) ++ [(0, 0, Ink.textInk)]

/-- The sequence of multiline_text draw passes the polygon rendering path
of the generate-patch endpoint in server.py issues. -/
def server_poly_draw_ops (strokeColor : Option String) (sw : Nat) :
    List (Int × Int × Ink) :=
  (match strokeColor with
   | some _ =>
     if 0 < sw then
       (serverStrokeOffsets sw).map (fun d => (d.1, d.2, Ink.strokeInk))
     else []
   | none => []) ++ [(0, 0, Ink.textInk)]

/-- Failure cases of the generate-patch endpoints that the embedding
distinguishes: the ValueError of decode_base64_image, the
FileNotFoundError or truetype failure of font loading, and the
AttributeError of the broken state reads of the handler. -/
inductive PatchErr where
  | decodeFailed : PatchErr
  | fontFailed : PatchErr
  | attrFailed : PatchErr
deriving DecidableEq

/-- A patch generation request, from the PatchRequest pydantic model in
src/manga-ocr/src/response_models.py. Polygon points carry rational
coordinates standing for the float fields of the Point model. -/
structure PatchReq where
  capturedImage : String
  translatedText : List String
  fontSize : Nat
  fontType : String
  textColor : String
  strokeColor : Option String
  strokeWidth : Nat
  polygonPoints : Option (List (ℚ × ℚ))
  alphaBackground : Bool
  cleanerThreshold : Nat

/-- External collaborators of the generate-patch endpoints: cv2.imdecode,
the text_cleaner module global of server.py (read by its endpoint, not by
the handler), cv2.inpaint for the OpenCV cleaner, the LaMa cleaner body
(threshold, dilation iterations, image), the cv2.fillPoly coverage
predicate on the rounded polygon, the filesystem and truetype tests for
fonts, the PIL text drawing on a 4-channel and on a 3-channel image, and
the set of pixels the drawn text covers. -/
structure PatchEnv where
  decode : String → Option Img
  text_cleaner : Option Cleaner
  inpaint : Img → (Nat → Nat → Nat) → Nat → Img
  lamaClean : Nat → Nat → Img → Img
  fillPoly : List (Int × Int) → Nat → Nat → Bool
  fexists : String → Bool
  ttOk : String → Bool
  renderRGBA : Font → Img → Img
  renderBGR : Font → Img → Img
  drawn : Nat → Nat → Bool

/-- Dispatch of a cleaner instance to its clean method. -/
def runCleaner (env : PatchEnv) : Cleaner → Img → Img
  | Cleaner.opencv t d r => opencv_clean env.inpaint t d r
  | Cleaner.lama t d => env.lamaClean t d

/-- clean_text_region of text_cleaner.py: a missing cleaner falls back to
a default-constructed OpenCVCleaner with threshold 180, one dilation
iteration and inpaint radius 3. -/
def clean_text_region (env : PatchEnv) (cl : Option Cleaner) (img : Img) : Img :=
  match cl with
  | none => opencv_clean env.inpaint 180 1 3 img
  | some cl => runCleaner env cl img

/-- _clean_image of handlers/patch.py: clean with the cleaner _get_cleaner
produces for the requested threshold. Since _get_cleaner raises
AttributeError on the broken state reads, so does every _clean_image
call. -/
def _clean_image (env : PatchEnv) (threshold : Nat) (img : Img) :
    Except PyErr Img := do
  let cl ← _get_cleaner threshold
  pure (clean_text_region env cl img)

/-- The polygon points rounded to integer coordinates exactly as the
source rounds them before cv2.fillPoly. -/
def roundPts (pts : List (ℚ × ℚ)) : List (Int × Int) :=
  pts.map (fun p => (pyRound p.1, pyRound p.2))

/-- The polygon mask of generate_patch: a zero mask filled with 255 by
cv2.fillPoly over the rounded polygon; the coverage predicate of fillPoly
is the external collaborator. -/
def polygonMask (env : PatchEnv) (pts : List (ℚ × ℚ)) : Nat → Nat → Nat :=
  fun y x => if env.fillPoly (roundPts pts) y x then 255 else 0

/-- The BGR to BGRA conversion followed by the alpha channel assignment of
generate_patch: color channels from the cleaned image, alpha from the
mask. -/
def compose4 (cleaned : Img) (mask : Nat → Nat → Nat) : Img :=
  { h := cleaned.h, w := cleaned.w, c := 4,
    pix := fun y x ch =>
      if ch = 3 then mask y x
      else if ch < 3 then cleaned.pix y x ch else 0 }

/-- The fully transparent 4-channel np.zeros image of the alpha
background mode. -/
def zeros4 (h w : Nat) : Img :=
  { h := h, w := w, c := 4, pix := fun _ _ _ => 0 }

/-- The image generate_patch builds before text rendering: the all-zero
transparent image in alpha background mode (this branch never touches the
broken state reads); otherwise the cleaned image — with the polygon mask
as alpha channel when a polygon of at least 3 points is supplied — whose
computation goes through _clean_image and so raises AttributeError on the
actual state module. -/
def composedBase (env : PatchEnv) (req : PatchReq) (page : Img) :
    Except PyErr Img :=
  if req.alphaBackground then .ok (zeros4 page.h page.w)
  else
    match req.polygonPoints with
    | some pts =>
      if 3 ≤ pts.length then
        (_clean_image env req.cleanerThreshold page).map
          (fun c => compose4 c (polygonMask env pts))
      else _clean_image env req.cleanerThreshold page
    | none => _clean_image env req.cleanerThreshold page

/-- The generate-patch handler of src/manga-ocr/src/handlers/patch.py, up
to png encoding: decode the region, build the base image (an
AttributeError there escapes to the outer except and fails the request),
then render the text through the 4-channel path (with its font fallback)
or the 3-channel path (without one); the returned size is the decoded
region size. -/
def generate_patch (env : PatchEnv) (req : PatchReq) :
    Except PatchErr (Img × Nat × Nat) :=
  match env.decode req.capturedImage with
  | none => .error .decodeFailed
  | some page =>
    match composedBase env req page with
    | .error _ => .error .attrFailed
    | .ok base =>
      if base.c = 4 then
        match selectFontRGBA env.fexists env.ttOk req.fontType req.fontSize with
        | .error _ => .error .fontFailed
        | .ok f => .ok (env.renderRGBA f base, page.w, page.h)
      else
        match selectFontBGR env.fexists env.ttOk req.fontType req.fontSize with
        | .error _ => .error .fontFailed
        | .ok f => .ok (env.renderBGR f base, page.w, page.h)

/-- A patch generation request of the generate-patch endpoint of
server.py, from the PatchRequest model defined in server.py itself: it
carries no alphaBackground and no cleanerThreshold field. -/
structure SrvPatchReq where
  capturedImage : String
  translatedText : List String
  fontSize : Nat
  fontType : String
  textColor : String
  strokeColor : Option String
  strokeWidth : Nat
  polygonPoints : Option (List (ℚ × ℚ))

/-- The generate-patch endpoint of server.py, up to png encoding: decode
the region; when a polygon of at least 3 points is supplied, build the
fillPoly mask over the rounded points, clean the full region with the
text_cleaner module global, convert to BGRA and set the alpha channel to
the mask, then render through the PIL path (get_font_path, whose failure
escapes, then truetype with the load_default fallback); otherwise clean
and render through render_text, whose font loading has no fallback. -/
def server_generate_patch (env : PatchEnv) (req : SrvPatchReq) :
    Except PatchErr (Img × Nat × Nat) :=
  match env.decode req.capturedImage with
  | none => .error .decodeFailed
  | some page =>
    match req.polygonPoints with
    | some pts =>
      if 3 ≤ pts.length then
        match selectFontRGBA env.fexists env.ttOk req.fontType req.fontSize with
        | .error _ => .error .fontFailed
        | .ok f =>
          .ok (env.renderRGBA f
              (compose4 (clean_text_region env env.text_cleaner page)
                (polygonMask env pts)),
            page.w, page.h)
      else
        match selectFontBGR env.fexists env.ttOk req.fontType req.fontSize with
        | .error _ => .error .fontFailed
        | .ok f =>
          .ok (env.renderBGR f (clean_text_region env env.text_cleaner page),
            page.w, page.h)
    | none =>
      match selectFontBGR env.fexists env.ttOk req.fontType req.fontSize with
      | .error _ => .error .fontFailed
      | .ok f =>
        .ok (env.renderBGR f (clean_text_region env env.text_cleaner page),
          page.w, page.h)

namespace Lama

/-- Reflection padding index of torch F.pad with mode reflect: an index
past the end reflects back without repeating the edge sample. Inside the
original extent it is the identity. -/
def reflIdx (n i : Nat) : Nat :=
  if i < n then i else 2 * n - 2 - i

/-- The mask binarization of SimpleLama: any nonzero mask sample becomes
1, zero stays 0, as a rational for the tensor arithmetic. -/
def binMask (mask : Nat → Nat → Nat) (y x : Nat) : ℚ :=
  if 0 < mask y x then 1 else 0

/-- torch clamp to the unit interval. -/
def clamp01 (q : ℚ) : ℚ := max 0 (min 1 q)

/-- The scaling by 255 and cast to uint8 at the end of SimpleLama, which
truncates; applied after the clamp the value is in range, so the
truncation is the floor. -/
def toByte (q : ℚ) : Nat := (⌊q * 255⌋).toNat

/-- The input of SimpleLama: an RGB image and a grayscale mask, given as
sample functions with channel, row, column order for the image. -/
structure LamaIn where
  hgt : Nat
  wid : Nat
  img : Nat → Nat → Nat → Nat
  mask : Nat → Nat → Nat

/-- SimpleLama call of src/manga-ocr/src/patch_generator/lama.py: scale
the image to the unit interval, binarize the mask, reflect-pad both to a
multiple of 8, feed the masked image concatenated with the mask to the
generator, composite the prediction inside the mask with the original
outside it, crop the padding away, clamp, scale back to bytes. The
generator network is the external collaborator, a function from the
4-channel input to a prediction. The result image uses row, column,
channel order like the rest of the embedding. -/
def simpleLamaCall
    (generator : (Nat → Nat → Nat → ℚ) → Nat → Nat → Nat → ℚ)
    (inp : LamaIn) : Img :=
  let H := inp.hgt
  let W := inp.wid
  let imgQ : Nat → Nat → Nat → ℚ :=
    fun c y x => (inp.img c (reflIdx H y) (reflIdx W x) : ℚ) / 255
  let bm : Nat → Nat → ℚ :=
    fun y x => binMask inp.mask (reflIdx H y) (reflIdx W x)
  let maskedImg : Nat → Nat → Nat → ℚ :=
    fun c y x => imgQ c y x * (1 - bm y x)
  let inputT : Nat → Nat → Nat → ℚ :=
    fun c y x => if c < 3 then maskedImg c y x else bm y x
  let predicted := generator inputT
  let result : Nat → Nat → Nat → ℚ :=
    fun c y x => bm y x * predicted c y x + (1 - bm y x) * imgQ c y x
  { h := H, w := W, c := 3,
    pix := fun y x ch => toByte (clamp01 (result ch y x)) }

end Lama

/-! Helper lemmas shared by the claim theorems. -/

lemma pyRound_intCast (n : Int) : pyRound (n : ℚ) = n := by
  unfold pyRound
  rw [Int.floor_intCast, sub_self]
  norm_num

lemma clamp01_of (q : ℚ) (h0 : 0 ≤ q) (h1 : q ≤ 1) : Lama.clamp01 q = q := by
  unfold Lama.clamp01
  rw [min_eq_right h1, max_eq_right h0]

lemma toByte_byte (v : Nat) : Lama.toByte ((v : ℚ) / 255) = v := by
  unfold Lama.toByte
  rw [div_mul_cancel₀ _ (by norm_num : (255 : ℚ) ≠ 0), Int.floor_natCast]
  exact Int.toNat_natCast v

lemma foldl_max_zero (f : Nat × Nat → Nat) (l : List (Nat × Nat))
    (h : ∀ p ∈ l, f p = 0) :
    l.foldl (fun acc p => max acc (f p)) 0 = 0 := by
  induction l with
  | nil => rfl
  | cons p ps ih =>
    have hp : f p = 0 := h p (List.mem_cons_self p ps)
    simp only [List.foldl_cons, hp, Nat.max_self, Nat.zero_max]
    exact ih (fun q hq => h q (List.mem_cons_of_mem p hq))

lemma dilateOnce_zero (h w : Nat) (m : Nat → Nat → Nat)
    (hm : ∀ y x, y < h → x < w → m y x = 0) :
    ∀ y x, dilateOnce h w m y x = 0 := by
  intro y x
  unfold dilateOnce
  apply foldl_max_zero
  intro p _
  by_cases hb : p.1 < h ∧ p.2 < w
  · rw [if_pos hb]; exact hm p.1 p.2 hb.1 hb.2
  · rw [if_neg hb]

lemma dilateN_zero (h w d : Nat) (m : Nat → Nat → Nat)
    (hm : ∀ y x, y < h → x < w → m y x = 0) :
    ∀ y x, y < h → x < w → dilateN h w d m y x = 0 := by
  induction d generalizing m with
  | zero => exact fun y x hy hx => hm y x hy hx
  | succ n ih =>
    intro y x hy hx
    exact ih (dilateOnce h w m)
      (fun y x _ _ => dilateOnce_zero h w m hm y x) y x hy hx

/-- The fixed point of the OpenCV cleaner: when every in-bounds pixel is
brighter than the threshold, the dilated removal mask is empty in bounds
and inpaint leaves every in-bounds pixel unchanged. Factored out so the
idempotence claim can apply it to the once-cleaned image. -/
lemma opencv_clean_fix (inpaint : Img → (Nat → Nat → Nat) → Nat → Img)
    (t d r : Nat) (img : Img)
    (hpix : ∀ im m rad y x ch, m y x = 0 →
      (inpaint im m rad).pix y x ch = im.pix y x ch)
    (htext : ∀ y x, y < img.h → x < img.w → t < grayAt img y x) :
    ∀ y x ch, y < img.h → x < img.w →
      (opencv_clean inpaint t d r img).pix y x ch = img.pix y x ch := by
  intro y x ch hy hx
  unfold opencv_clean
  apply hpix
  apply dilateN_zero img.h img.w d _ _ y x hy hx
  intro y2 x2 hy2 hx2
  unfold opencvMask0 threshINV
  exact if_pos (htext y2 x2 hy2 hx2)

lemma selectFontRGBA_ok (fexists ttOk : String → Bool) (fam : String) (size : Nat)
    (hf : fexists (font_paths fam) = true) :
    ∃ f, selectFontRGBA fexists ttOk fam size = .ok f := by
  unfold selectFontRGBA get_font_path
  rw [if_pos hf]
  cases h : ttOk (font_paths fam) <;> simp [h]

/-! Claim theorems. -/

/-- C10: the neural inpainting wrapper returns an image of the same width
and height as its input whose pixel at every location where the binarized
mask is zero equals the input pixel: the generator prediction replaces
pixels only inside the nonzero region of the mask, and the padding to a
multiple of 8 is cropped away. -/
theorem C10_inpaint_frame
    (generator : (Nat → Nat → Nat → ℚ) → Nat → Nat → Nat → ℚ)
    (inp : Lama.LamaIn)
    (hbytes : ∀ c y x, inp.img c y x ≤ 255) :
    (Lama.simpleLamaCall generator inp).h = inp.hgt ∧
    (Lama.simpleLamaCall generator inp).w = inp.wid ∧
    (Lama.simpleLamaCall generator inp).c = 3 ∧
    ∀ y x ch, y < inp.hgt → x < inp.wid → inp.mask y x = 0 →
      (Lama.simpleLamaCall generator inp).pix y x ch = inp.img ch y x := by
  refine ⟨rfl, rfl, rfl, ?_⟩
  intro y x ch hy hx hm
  have hry : Lama.reflIdx inp.hgt y = y := if_pos hy
  have hrx : Lama.reflIdx inp.wid x = x := if_pos hx
  simp only [Lama.simpleLamaCall, hry, hrx]
  unfold Lama.binMask
  rw [hm]
  norm_num
  rw [clamp01_of _ (by positivity)
    (by rw [div_le_one (by norm_num : (0:ℚ) < 255)]; exact_mod_cast hbytes ch y x)]
  exact toByte_byte _

/-- A concrete run of the C10 theorem: a 1 by 1 image with value 7 and an
all-zero mask passes through the wrapper unchanged, for the generator that
predicts 0 everywhere. -/
theorem C10_inpaint_frame_witness :
    (Lama.simpleLamaCall (fun _ _ _ _ => 0) ⟨1, 1, fun _ _ _ => 7, fun _ _ => 0⟩).pix 0 0 0 = 7 ∧
    (Lama.simpleLamaCall (fun _ _ _ _ => 0) ⟨1, 1, fun _ _ _ => 7, fun _ _ => 0⟩).h = 1 := by
  have h := C10_inpaint_frame (fun _ _ _ _ => 0)
    ⟨1, 1, fun _ _ _ => 7, fun _ _ => 0⟩ (fun _ _ _ => by norm_num)
  exact ⟨h.2.2.2 0 0 0 (by norm_num) (by norm_num) rfl, h.1⟩

/-- C9: on an image in which no pixel is classified as text by the
threshold of the classical cleaner (every in-bounds grayscale sample lies
above the threshold), the cleaner changes no pixel, and therefore applying
it twice equals applying it once. -/
theorem C9_clean_idempotent (inpaint : Img → (Nat → Nat → Nat) → Nat → Img)
    (t d r : Nat) (img : Img)
    (hpix : ∀ im m rad y x ch, m y x = 0 →
      (inpaint im m rad).pix y x ch = im.pix y x ch)
    (hdims : ∀ im m rad, (inpaint im m rad).h = im.h ∧ (inpaint im m rad).w = im.w)
    (htext : ∀ y x, y < img.h → x < img.w → t < grayAt img y x) :
    (∀ y x ch, y < img.h → x < img.w →
      (opencv_clean inpaint t d r img).pix y x ch = img.pix y x ch) ∧
    (∀ y x ch, y < img.h → x < img.w →
      (opencv_clean inpaint t d r (opencv_clean inpaint t d r img)).pix y x ch
        = (opencv_clean inpaint t d r img).pix y x ch) := by
  have h1 := opencv_clean_fix inpaint t d r img hpix htext
  refine ⟨h1, ?_⟩
  have hd : (opencv_clean inpaint t d r img).h = img.h ∧
      (opencv_clean inpaint t d r img).w = img.w := by
    unfold opencv_clean
    exact hdims img _ r
  have htext2 : ∀ y x, y < (opencv_clean inpaint t d r img).h →
      x < (opencv_clean inpaint t d r img).w →
      t < grayAt (opencv_clean inpaint t d r img) y x := by
    intro y x hy hx
    rw [hd.1] at hy
    rw [hd.2] at hx
    unfold grayAt
    rw [h1 y x 0 hy hx, h1 y x 1 hy hx, h1 y x 2 hy hx]
    exact htext y x hy hx
  intro y x ch hy hx
  exact opencv_clean_fix inpaint t d r _ hpix htext2 y x ch
    (by rw [hd.1]; exact hy) (by rw [hd.2]; exact hx)

/-- A concrete run of the C9 theorem: an all-white 1 by 1 image at the
default threshold 180 is a fixed point of the classical cleaner, with the
inpaint collaborator that returns its input. -/
theorem C9_clean_idempotent_witness :
    (opencv_clean (fun im _ _ => im) 180 1 3 ⟨1, 1, 3, fun _ _ _ => 255⟩).pix 0 0 0
      = (255 : Nat) ∧
    (opencv_clean (fun im _ _ => im) 180 1 3
        (opencv_clean (fun im _ _ => im) 180 1 3 ⟨1, 1, 3, fun _ _ _ => 255⟩)).pix 0 0 0
      = (opencv_clean (fun im _ _ => im) 180 1 3 ⟨1, 1, 3, fun _ _ _ => 255⟩).pix 0 0 0 := by
  have h := C9_clean_idempotent (fun im _ _ => im) 180 1 3
    ⟨1, 1, 3, fun _ _ _ => 255⟩
    (fun _ _ _ _ _ _ _ => rfl) (fun _ _ _ => ⟨rfl, rfl⟩)
    (fun y x _ _ => by simp only [grayAt, bgr2gray]; norm_num)
  exact ⟨h.1 0 0 0 (by norm_num) (by norm_num), h.2 0 0 0 (by norm_num) (by norm_num)⟩

/-- C5 counterexample: a request carrying cleanerThreshold 200 never gets
a removal mask thresholded at 200: the _get_cleaner call of the handler
raises AttributeError on the missing state attributes before any cleaner
is produced, and the classical cleaner the process actually runs (at its
constructor default 180) computes, on a pixel of grayscale value 190, the
mask value 0 where the binary threshold at the requested 200 gives 255:
the caller threshold is not honored by the classical cleaner. -/
theorem C5_counterexample :
    _get_cleaner 200 = .error PyErr.attributeError ∧
    opencvMask0 180 ⟨1, 1, 3, fun _ _ _ => 190⟩ 0 0 = 0 ∧
    opencvMask0 200 ⟨1, 1, 3, fun _ _ _ => 190⟩ 0 0 = 255 ∧
    opencvMask0 180 ⟨1, 1, 3, fun _ _ _ => 190⟩ 0 0 ≠
      opencvMask0 200 ⟨1, 1, 3, fun _ _ _ => 190⟩ 0 0 := by
  refine ⟨rfl, ?_, ?_, ?_⟩ <;> decide

/-- C5 amended: the caller-supplied cleanerThreshold is never honored by
the classical cleaner. Every _get_cleaner call raises AttributeError on
the missing state attributes, so every request of the handler that
reaches cleaning fails; the classical cleaner binary-thresholds at its
own configured threshold; and even the branch logic of _get_cleaner,
reachable only after the failing reads, would return the classical
cleaner unchanged and install the request threshold only into a fresh
LaMa cleaner. -/
theorem C5_threshold_routing (reqT a d r t0 d0 : Nat) :
    _get_cleaner reqT = .error PyErr.attributeError ∧
    (∀ env : PatchEnv, ∀ req : PatchReq, ∀ page : Img,
      env.decode req.capturedImage = some page →
      req.alphaBackground = false →
      generate_patch env req = .error PatchErr.attrFailed) ∧
    (∀ mode : String,
      _get_cleaner_body mode (some (Cleaner.opencv a d r)) reqT
        = some (Cleaner.opencv a d r)) ∧
    _get_cleaner_body "lama" (some (Cleaner.lama t0 d0)) reqT
      = some (Cleaner.lama reqT 2) ∧
    (∀ env : PatchEnv, ∀ img : Img,
      runCleaner env (Cleaner.opencv a d r) img
        = env.inpaint img (dilateN img.h img.w d (opencvMask0 a img)) r) := by
  refine ⟨rfl, ?_, fun mode => rfl, rfl, fun env img => rfl⟩
  intro env req page hpage hfalse
  have hcb : composedBase env req page = .error PyErr.attributeError := by
    unfold composedBase
    rw [hfalse]
    simp only [Bool.false_eq_true, if_false]
    cases hp : req.polygonPoints with
    | none => rfl
    | some pts =>
      show (if 3 ≤ pts.length then
          Except.map (fun c => compose4 c (polygonMask env pts))
            (_clean_image env req.cleanerThreshold page)
        else _clean_image env req.cleanerThreshold page) = _
      by_cases hl : 3 ≤ pts.length
      · rw [if_pos hl]
        rfl
      · rw [if_neg hl]
        rfl
  unfold generate_patch
  rw [hpage]
  simp only [hcb]

/-- A concrete run of the C5 amended theorem: the handler raises on
threshold 200, the branch logic keeps the classical cleaner with its 180,
and forwards 77 only into a fresh LaMa cleaner. -/
theorem C5_threshold_routing_witness :
    _get_cleaner 200 = .error PyErr.attributeError ∧
    _get_cleaner_body "opencv" (some (Cleaner.opencv 180 1 3)) 200
      = some (Cleaner.opencv 180 1 3) ∧
    _get_cleaner_body "lama" (some (Cleaner.lama 200 2)) 77
      = some (Cleaner.lama 77 2) := by
  exact ⟨(C5_threshold_routing 200 180 1 3 200 2).1,
    (C5_threshold_routing 200 180 1 3 200 2).2.2.1 "opencv",
    (C5_threshold_routing 77 0 0 0 200 2).2.2.2.1⟩

/-- An environment whose filesystem has no font files at all: every
existence test fails, so the font resource of any family cannot be
opened. -/
def envNoFont : PatchEnv where
  decode := fun _ => some ⟨2, 2, 3, fun _ _ _ => 255⟩
  text_cleaner := some (Cleaner.opencv 180 1 3)
  inpaint := fun im _ _ => im
  lamaClean := fun _ _ im => im
  fillPoly := fun _ _ _ => false
  fexists := fun _ => false
  ttOk := fun _ => true
  renderRGBA := fun _ im => im
  renderBGR := fun _ im => im
  drawn := fun _ _ => false

/-- An alpha-background request for the regular family. -/
def reqRegular : PatchReq :=
  ⟨"img", [], 24, "regular", "#000000", none, 0, none, true, 200⟩

/-- C4 counterexample: when the font resource of the requested family
cannot be opened because the file is missing, get_font_path raises
FileNotFoundError before the truetype fallback is reachable, and the
patch generation request fails instead of succeeding with the built-in
default font. -/
theorem C4_counterexample :
    generate_patch envNoFont reqRegular = .error PatchErr.fontFailed ∧
    get_font_path (fun _ => false) "regular" = .error FontErr.fontNotFound := by
  exact ⟨rfl, rfl⟩

/-- C4 amended: an unresolved family name falls back to the regular
family; when the font file exists but the truetype loader fails on it,
the 4-channel rendering path substitutes the built-in default font and
the request still succeeds — on the alpha-background path of the handler
(the only handler path that reaches rendering, its cleaning paths failing
earlier on the broken state reads) and on the polygon path of the
server endpoint; but a font file that is missing fails get_font_path, and
with it the request, on either rendering path. -/
theorem C4_font_fallback (fexists ttOk : String → Bool) (fam : String) (size : Nat) :
    (fam ≠ "regular" → fam ≠ "bold" → fam ≠ "italic" →
      font_paths fam = font_paths "regular") ∧
    (fexists (font_paths fam) = true → ttOk (font_paths fam) = false →
      selectFontRGBA fexists ttOk fam size = .ok Font.default) ∧
    (fexists (font_paths fam) = true → ttOk (font_paths fam) = true →
      selectFontRGBA fexists ttOk fam size = .ok (Font.truetype (font_paths fam) size)) ∧
    (fexists (font_paths fam) = false →
      selectFontRGBA fexists ttOk fam size = .error FontErr.fontNotFound ∧
      selectFontBGR fexists ttOk fam size = .error FontErr.fontNotFound) ∧
    (∀ env : PatchEnv, ∀ req : PatchReq, ∀ page : Img,
      env.decode req.capturedImage = some page →
      req.alphaBackground = true →
      env.fexists (font_paths req.fontType) = true →
      (generate_patch env req).isOk = true) ∧
    (∀ env : PatchEnv, ∀ req : SrvPatchReq, ∀ page : Img,
      ∀ pts : List (ℚ × ℚ),
      env.decode req.capturedImage = some page →
      req.polygonPoints = some pts → 3 ≤ pts.length →
      env.fexists (font_paths req.fontType) = true →
      (server_generate_patch env req).isOk = true) := by
  have hok : ∀ he : fexists (font_paths fam) = true,
      get_font_path fexists fam = .ok (font_paths fam) := by
    intro he
    unfold get_font_path
    rw [if_pos he]
  have herr : ∀ he : fexists (font_paths fam) = false,
      get_font_path fexists fam = .error FontErr.fontNotFound := by
    intro he
    unfold get_font_path
    rw [if_neg (by simp [he])]
  refine ⟨?_, ?_, ?_, ?_, ?_, ?_⟩
  · intro h1 h2 h3
    unfold font_paths
    rw [if_neg h1, if_neg h2, if_neg h3]
    rfl
  · intro he ht
    unfold selectFontRGBA
    rw [hok he]
    exact if_neg (by simp [ht])
  · intro he ht
    unfold selectFontRGBA
    rw [hok he]
    exact if_pos ht
  · intro he
    constructor
    · unfold selectFontRGBA
      rw [herr he]
    · unfold selectFontBGR
      rw [herr he]
  · intro env req page hpage halpha hf
    obtain ⟨f, hfsel⟩ :=
      selectFontRGBA_ok env.fexists env.ttOk req.fontType req.fontSize hf
    have hcb : composedBase env req page = .ok (zeros4 page.h page.w) := by
      unfold composedBase
      rw [halpha]
      rfl
    unfold generate_patch
    rw [hpage]
    simp only [hcb, hfsel]
    rfl
  · intro env req page pts hpage hpts hlen hf
    obtain ⟨f, hfsel⟩ :=
      selectFontRGBA_ok env.fexists env.ttOk req.fontType req.fontSize hf
    unfold server_generate_patch
    rw [hpage]
    simp only [hpts, if_pos hlen, hfsel]
    rfl

/-- A patch environment whose collaborators are the identity: the decode
yields a 3 by 5 white region, the process cleaner is the classical one at
its default, fonts exist and load, the renderer draws nothing. -/
def envIdent : PatchEnv where
  decode := fun _ => some ⟨3, 5, 3, fun _ _ _ => 255⟩
  text_cleaner := some (Cleaner.opencv 180 1 3)
  inpaint := fun im _ _ => im
  lamaClean := fun _ _ im => im
  fillPoly := fun pts y x => decide (y + x ≤ 1) && decide (pts.length ≥ 3)
  fexists := fun _ => true
  ttOk := fun _ => true
  renderRGBA := fun _ im => im
  renderBGR := fun _ im => im
  drawn := fun _ _ => false

/-- The identity environment with a font file that exists but cannot be
loaded by the truetype loader. -/
def envDefaultFont : PatchEnv :=
  { envIdent with ttOk := fun _ => false }

/-- A triangle with vertices at the origin, (4, 0) and (2, 2). -/
def triPts : List (ℚ × ℚ) :=
  [(((0 : Int) : ℚ), ((0 : Int) : ℚ)), (((4 : Int) : ℚ), ((0 : Int) : ℚ)),
   (((2 : Int) : ℚ), ((2 : Int) : ℚ))]

/-- A polygon request of the server endpoint over the triangle. -/
def srvTriReq : SrvPatchReq :=
  ⟨"img", [], 24, "regular", "#000000", none, 0, some triPts⟩

/-- A concrete run of the C4 amended theorem: the comic family resolves to
the regular font path, an unloadable existing font file yields the
default font with success, a missing font file yields the
FileNotFoundError, and with an existing but unloadable font file both the
alpha-background handler request and the polygon server request still
succeed. -/
theorem C4_font_fallback_witness :
    font_paths "comic" = font_paths "regular" ∧
    selectFontRGBA (fun _ => true) (fun _ => false) "regular" 24 = .ok Font.default ∧
    selectFontRGBA (fun _ => false) (fun _ => true) "regular" 24
      = .error FontErr.fontNotFound ∧
    (generate_patch envDefaultFont reqRegular).isOk = true ∧
    (server_generate_patch envDefaultFont srvTriReq).isOk = true := by
  refine ⟨(C4_font_fallback (fun _ => true) (fun _ => false) "comic" 24).1
      (by decide) (by decide) (by decide),
    (C4_font_fallback (fun _ => true) (fun _ => false) "regular" 24).2.1 rfl rfl,
    ((C4_font_fallback (fun _ => false) (fun _ => true) "regular" 24).2.2.2.1 rfl).1,
    (C4_font_fallback (fun _ => true) (fun _ => false) "regular" 24).2.2.2.2.1
      envDefaultFont reqRegular _ rfl rfl rfl,
    (C4_font_fallback (fun _ => true) (fun _ => false) "regular" 24).2.2.2.2.2
      envDefaultFont srvTriReq _ triPts rfl rfl (by norm_num [triPts]) rfl⟩

lemma srvOverlayLoop_dims (env : Server.SrvEnv)
    (happly : ∀ pg p, (env.applyOverlay pg p).h = pg.h ∧ (env.applyOverlay pg p).w = pg.w)
    (ps : List Handlers.PatchOverlay) :
    ∀ pg : Img, (Server.srvOverlayLoop env pg ps).h = pg.h ∧
      (Server.srvOverlayLoop env pg ps).w = pg.w := by
  induction ps with
  | nil => exact fun pg => ⟨rfl, rfl⟩
  | cons p ps ih =>
    intro pg
    have h1 := happly pg p
    have h2 := ih (env.applyOverlay pg p)
    exact ⟨h2.1.trans h1.1, h2.2.trans h1.2⟩

/-- C2: when the page decodes, the merge endpoint of server.py re-encodes
the composited page in the detected container format of the page: a png
page yields png output of the same dimensions, a jpeg page yields jpg
output, and any other detected format falls back to jpg at the fixed
quality 95. The dimension conjunct assumes the PIL paste collaborator
preserves the page size, which it does. -/
theorem C2_output_format (env : Server.SrvEnv) (req : Handlers.MergePatchesRequest)
    (page : Img)
    (hpage : env.decode req.pageImageBase64 = some page)
    (happly : ∀ pg p, (env.applyOverlay pg p).h = pg.h ∧ (env.applyOverlay pg p).w = pg.w) :
    ∃ m f q, Server.server_merge_core env req = .ok (m, f, q) ∧
      m.h = page.h ∧ m.w = page.w ∧
      ((env.detectFmt req.pageImageBase64).getD "jpeg" = "png" →
        f = "png" ∧ q = none) ∧
      (∀ s, (env.detectFmt req.pageImageBase64).getD "jpeg" = s →
        s = "jpeg" ∨ s = "jpg" → f = "jpg" ∧ q = some 95) ∧
      (∀ s, (env.detectFmt req.pageImageBase64).getD "jpeg" = s →
        s ≠ "png" → s ≠ "jpeg" → s ≠ "jpg" → f = "jpg" ∧ q = some 95) := by
  refine ⟨Server.srvOverlayLoop env page req.patches,
    (Server.chooseEncoding ((env.detectFmt req.pageImageBase64).getD "jpeg")).1,
    (Server.chooseEncoding ((env.detectFmt req.pageImageBase64).getD "jpeg")).2,
    ?_, ?_, ?_, ?_, ?_, ?_⟩
  · unfold Server.server_merge_core
    rw [hpage]
  · exact (srvOverlayLoop_dims env happly req.patches page).1
  · exact (srvOverlayLoop_dims env happly req.patches page).2
  · intro hs
    rw [hs]
    exact ⟨rfl, rfl⟩
  · intro s hs hjp
    rw [hs]
    rcases hjp with h | h <;> rw [h] <;> exact ⟨rfl, rfl⟩
  · intro s hs h1 h2 h3
    rw [hs]
    unfold Server.chooseEncoding
    rw [if_neg h1, if_neg (by simp [h2, h3])]
    exact ⟨rfl, rfl⟩

/-- A server merge environment over a png page of 2 rows and 3 columns,
with the identity overlay collaborator. -/
def envPng : Server.SrvEnv :=
  ⟨fun _ => some ⟨2, 3, 3, fun _ _ _ => 0⟩, fun _ => some "png", fun pg _ => pg⟩

/-- A concrete run of the C2 theorem: merging zero overlays onto the png
page yields png output of the same 2 by 3 dimensions with no jpeg quality
parameter. -/
theorem C2_output_format_witness :
    ∃ m, Server.server_merge_core envPng ⟨"P", []⟩ = .ok (m, "png", none) ∧
      m.h = 2 ∧ m.w = 3 := by
  obtain ⟨m, f, q, hok, hh, hw, hpng, _, _⟩ :=
    C2_output_format envPng ⟨"P", []⟩ ⟨2, 3, 3, fun _ _ _ => 0⟩ rfl
      (fun pg p => ⟨rfl, rfl⟩)
  obtain ⟨hf, hq⟩ := hpng rfl
  rw [hf, hq] at hok
  exact ⟨m, hok, hh, hw⟩

lemma mem_offsetRange (sw : Nat) (d : Int) :
    d ∈ offsetRange sw ↔ -(sw : Int) ≤ d ∧ d ≤ sw := by
  unfold offsetRange
  rw [List.mem_map]
  constructor
  · rintro ⟨i, hi, hd⟩
    rw [List.mem_range] at hi
    omega
  · intro h
    refine ⟨(d + sw).toNat, ?_, ?_⟩
    · rw [List.mem_range]
      omega
    · omega

lemma mem_squareOffsets (sw : Nat) (p : Int × Int) :
    p ∈ squareOffsets sw ↔
      (-(sw : Int) ≤ p.1 ∧ p.1 ≤ sw ∧ -(sw : Int) ≤ p.2 ∧ p.2 ≤ sw ∧
        ¬(p.1 = 0 ∧ p.2 = 0)) := by
  unfold squareOffsets
  simp only [List.mem_flatMap, List.mem_filterMap, mem_offsetRange]
  constructor
  · rintro ⟨dx, hdx, dy, hdy, hsome⟩
    by_cases h : dx = 0 ∧ dy = 0
    · rw [if_pos h] at hsome
      cases hsome
    · rw [if_neg h] at hsome
      obtain rfl : (dx, dy) = p := by injection hsome
      exact ⟨hdx.1, hdx.2, hdy.1, hdy.2, h⟩
  · rintro ⟨h1, h2, h3, h4, h5⟩
    refine ⟨p.1, ⟨h1, h2⟩, p.2, ⟨h3, h4⟩, ?_⟩
    rw [if_neg h5]

lemma mem_serverStrokeOffsets (sw : Nat) (p : Int × Int) :
    p ∈ serverStrokeOffsets sw ↔
      ((p.1 = -(sw : Int) ∨ p.1 = 0 ∨ p.1 = sw) ∧
       (p.2 = -(sw : Int) ∨ p.2 = 0 ∨ p.2 = sw) ∧
        ¬(p.1 = 0 ∧ p.2 = 0)) := by
  unfold serverStrokeOffsets
  simp only [List.mem_flatMap, List.mem_filterMap, List.mem_cons,
    List.not_mem_nil, or_false]
  constructor
  · rintro ⟨dx, hdx, dy, hdy, hsome⟩
    by_cases h : dx = 0 ∧ dy = 0
    · rw [if_pos h] at hsome
      cases hsome
    · rw [if_neg h] at hsome
      obtain rfl : (dx, dy) = p := by injection hsome
      exact ⟨hdx, hdy, h⟩
  · rintro ⟨h1, h2, h5⟩
    refine ⟨p.1, h1, p.2, h2, ?_⟩
    rw [if_neg h5]

lemma offsetRange_nodup (sw : Nat) : (offsetRange sw).Nodup := by
  have hinj : Function.Injective (fun i : Nat => (i : Int) - (sw : Int)) := by
    intro a b hab
    simp only at hab
    omega
  exact List.Nodup.map hinj (List.nodup_range (2 * sw + 1))

lemma inner_fst (l : List Int) (dx : Int) (a : Int × Int)
    (h : a ∈ l.filterMap (fun dy => if dx = 0 ∧ dy = 0 then none else some (dx, dy))) :
    a.1 = dx := by
  simp only [List.mem_filterMap] at h
  obtain ⟨dy, _, hsome⟩ := h
  by_cases hc : dx = 0 ∧ dy = 0
  · rw [if_pos hc] at hsome
    cases hsome
  · rw [if_neg hc] at hsome
    obtain rfl : (dx, dy) = a := by injection hsome
    rfl

lemma inner_nodup (l : List Int) (dx : Int) (hl : l.Nodup) :
    (l.filterMap (fun dy => if dx = 0 ∧ dy = 0 then none else some (dx, dy))).Nodup := by
  refine List.Nodup.filterMap ?_ hl
  intro a a' b hb hb'
  rw [Option.mem_def] at hb hb'
  by_cases hc : dx = 0 ∧ a = 0
  · rw [if_pos hc] at hb
    cases hb
  · rw [if_neg hc] at hb
    by_cases hc' : dx = 0 ∧ a' = 0
    · rw [if_pos hc'] at hb'
      cases hb'
    · rw [if_neg hc'] at hb'
      have e1 : (dx, a) = b := by injection hb
      have e2 : (dx, a') = b := by injection hb'
      have : (dx, a) = (dx, a') := e1.trans e2.symm
      injection this

lemma flatMap_offsets_nodup (l : List Int) (hl : l.Nodup) :
    (l.flatMap (fun dx => l.filterMap
      (fun dy => if dx = 0 ∧ dy = 0 then none else some (dx, dy)))).Nodup := by
  rw [List.nodup_flatMap]
  refine ⟨fun dx _ => inner_nodup l dx hl, ?_⟩
  refine hl.imp ?_
  intro dx dx' hne
  rw [Function.onFun, List.disjoint_left]
  intro a ha ha'
  exact hne ((inner_fst l dx a ha).symm.trans (inner_fst l dx' a ha'))

lemma squareOffsets_nodup (sw : Nat) : (squareOffsets sw).Nodup :=
  flatMap_offsets_nodup (offsetRange sw) (offsetRange_nodup sw)

lemma serverStrokeOffsets_nodup (sw : Nat) (h : 0 < sw) :
    (serverStrokeOffsets sw).Nodup := by
  refine flatMap_offsets_nodup _ ?_
  refine List.nodup_cons.2 ⟨?_, List.nodup_cons.2 ⟨?_, List.nodup_singleton _⟩⟩
  · simp only [List.mem_cons, List.not_mem_nil, or_false]
    omega
  · simp only [List.mem_singleton]
    omega

/-- C6 counterexample: in the polygon rendering path of the server, with
a requested stroke of width 2, the offset (1, 0) lies in the square from
minus 2 to 2 and differs from (0, 0), yet no stroke pass is drawn there:
that path draws only the 8 offsets whose coordinates are -2, 0 or 2, so
the stroke is not drawn at every integer offset of the square. -/
theorem C6_counterexample :
    ((1 : Int), (0 : Int), Ink.strokeInk) ∉ server_poly_draw_ops (some "#FFFFFF") 2 ∧
    ((-2 : Int), (-2 : Int), Ink.strokeInk) ∈ server_poly_draw_ops (some "#FFFFFF") 2 ∧
    (-2 : Int) ≤ 1 ∧ (1 : Int) ≤ 2 ∧ ¬((1 : Int) = 0 ∧ (0 : Int) = 0) ∧
    (server_poly_draw_ops (some "#FFFFFF") 2).length = 9 ∧
    (render_text_draw_ops (some "#FFFFFF") 2).length = 25 := by
  refine ⟨?_, ?_, ?_, ?_, ?_, ?_, ?_⟩ <;> decide

/-- C6 amended: render_text (and the 4-channel handler path) draws one
stroke pass at every integer offset of the square from minus stroke_width
to stroke_width except (0, 0), each offset once, followed by the single
final pass at (0, 0) in the text color; the polygon rendering path of the
server instead draws stroke passes only at the 8 offsets whose
coordinates are in the three-element set of minus stroke_width, 0 and
stroke_width; and in all paths no stroke pass occurs when stroke_width is
0 or the stroke color is absent. -/
theorem C6_stroke_offsets (sc : String) (sw : Nat) (h : 0 < sw) :
    render_text_draw_ops (some sc) sw
      = (squareOffsets sw).map (fun d => (d.1, d.2, Ink.strokeInk))
          ++ [(0, 0, Ink.textInk)] ∧
    (∀ dx dy : Int, (dx, dy) ∈ squareOffsets sw ↔
      (-(sw : Int) ≤ dx ∧ dx ≤ sw ∧ -(sw : Int) ≤ dy ∧ dy ≤ sw ∧
        ¬(dx = 0 ∧ dy = 0))) ∧
    (squareOffsets sw).Nodup ∧
    server_poly_draw_ops (some sc) sw
      = (serverStrokeOffsets sw).map (fun d => (d.1, d.2, Ink.strokeInk))
          ++ [(0, 0, Ink.textInk)] ∧
    (∀ dx dy : Int, (dx, dy) ∈ serverStrokeOffsets sw ↔
      ((dx = -(sw : Int) ∨ dx = 0 ∨ dx = sw) ∧
       (dy = -(sw : Int) ∨ dy = 0 ∨ dy = sw) ∧ ¬(dx = 0 ∧ dy = 0))) ∧
    (serverStrokeOffsets sw).Nodup ∧
    render_text_draw_ops none sw = [(0, 0, Ink.textInk)] ∧
    render_text_draw_ops (some sc) 0 = [(0, 0, Ink.textInk)] ∧
    server_poly_draw_ops none sw = [(0, 0, Ink.textInk)] ∧
    server_poly_draw_ops (some sc) 0 = [(0, 0, Ink.textInk)] := by
  refine ⟨?_, fun dx dy => mem_squareOffsets sw (dx, dy), squareOffsets_nodup sw,
    ?_, fun dx dy => mem_serverStrokeOffsets sw (dx, dy),
    serverStrokeOffsets_nodup sw h, rfl, rfl, rfl, rfl⟩
  · unfold render_text_draw_ops
    rw [if_pos h]
  · unfold server_poly_draw_ops
    rw [if_pos h]

/-- A concrete run of the C6 amended theorem at stroke width 1: the
square and the three-element set coincide there, and the offset lists
enumerate the 8 neighbors once each before the final text pass. -/
theorem C6_stroke_offsets_witness :
    render_text_draw_ops (some "#FFFFFF") 1
      = (squareOffsets 1).map (fun d => (d.1, d.2, Ink.strokeInk))
          ++ [(0, 0, Ink.textInk)] ∧
    ((1 : Int), (1 : Int)) ∈ squareOffsets 1 ∧
    render_text_draw_ops none 1 = [(0, 0, Ink.textInk)] := by
  have h := C6_stroke_offsets "#FFFFFF" 1 (by norm_num)
  exact ⟨h.1, (h.2.1 1 1).2 (by norm_num), h.2.2.2.2.2.2.1⟩

/-! Lemmas about the merge handler overlay loop. -/

lemma toBGRA_h (img : Img) : (Handlers.toBGRA img).h = img.h := by
  unfold Handlers.toBGRA
  split <;> rfl

lemma toBGRA_w (img : Img) : (Handlers.toBGRA img).w = img.w := by
  unfold Handlers.toBGRA
  split <;> rfl

lemma toBGRA_pix_color (img : Img) (y x ch : Nat) (hch : ch ≠ 3) :
    (Handlers.toBGRA img).pix y x ch = img.pix y x ch := by
  unfold Handlers.toBGRA
  split
  · simp only [if_neg hch]
  · rfl

lemma applyPatch_ok_dims (env : Handlers.MergeEnv) (pg : Img)
    (p : Handlers.PatchOverlay) (pg2 : Img)
    (h : Handlers.applyPatch env pg p = .ok pg2) :
    pg2.h = pg.h ∧ pg2.w = pg.w := by
  cases hdec : env.decode p.patchImageBase64 with
  | none =>
    simp only [Handlers.applyPatch, hdec] at h
    exact (Except.noConfusion h)
  | some i =>
    simp only [Handlers.applyPatch, hdec] at h
    split at h <;> (injection h with h2; subst h2; exact ⟨rfl, rfl⟩)

lemma applyPatch_isOk (env : Handlers.MergeEnv) (pg : Img)
    (p : Handlers.PatchOverlay)
    (hd : (env.decode p.patchImageBase64).isSome = true) :
    ∃ pg2, Handlers.applyPatch env pg p = .ok pg2 := by
  obtain ⟨i, hi⟩ := Option.isSome_iff_exists.1 hd
  simp only [Handlers.applyPatch, hi]
  split
  · exact ⟨pg, rfl⟩
  · exact ⟨_, rfl⟩

lemma overlayLoop_isOk (env : Handlers.MergeEnv)
    (ps : List Handlers.PatchOverlay)
    (hall : ∀ p ∈ ps, (env.decode p.patchImageBase64).isSome = true) :
    ∀ pg : Img, ∃ m, Handlers.overlayLoop env pg ps = .ok m := by
  induction ps with
  | nil => exact fun pg => ⟨pg, rfl⟩
  | cons p ps ih =>
    intro pg
    obtain ⟨pg2, h2⟩ :=
      applyPatch_isOk env pg p (hall p (List.mem_cons_self p ps))
    obtain ⟨m, hm⟩ :=
      ih (fun q hq => hall q (List.mem_cons_of_mem p hq)) pg2
    exact ⟨m, by simp only [Handlers.overlayLoop, h2, hm]⟩

lemma inBoundsB_false_cond (env : Handlers.MergeEnv) (W H : Nat)
    (p : Handlers.PatchOverlay) (i : Img)
    (hi : env.decode p.patchImageBase64 = some i)
    (hb : Handlers.inBoundsB env W H p = false) :
    pyRound p.x < 0 ∨ pyRound p.y < 0 ∨
      pyRound p.x + ((Handlers.resizeStep env (Handlers.toBGRA i) p).w : Int) > (W : Int) ∨
      pyRound p.y + ((Handlers.resizeStep env (Handlers.toBGRA i) p).h : Int) > (H : Int) := by
  unfold Handlers.inBoundsB Handlers.effPatch at hb
  rw [hi] at hb
  simp only [Option.map_some'] at hb
  rw [decide_eq_false_iff_not] at hb
  by_contra hcon
  push_neg at hcon
  exact hb ⟨by omega, by omega, by omega, by omega⟩

lemma inBoundsB_true_cond (env : Handlers.MergeEnv) (W H : Nat)
    (p : Handlers.PatchOverlay) (i : Img)
    (hi : env.decode p.patchImageBase64 = some i)
    (hb : Handlers.inBoundsB env W H p = true) :
    ¬(pyRound p.x < 0 ∨ pyRound p.y < 0 ∨
      pyRound p.x + ((Handlers.resizeStep env (Handlers.toBGRA i) p).w : Int) > (W : Int) ∨
      pyRound p.y + ((Handlers.resizeStep env (Handlers.toBGRA i) p).h : Int) > (H : Int)) := by
  unfold Handlers.inBoundsB Handlers.effPatch at hb
  rw [hi] at hb
  simp only [Option.map_some'] at hb
  rw [decide_eq_true_eq] at hb
  omega

lemma applyPatch_oob (env : Handlers.MergeEnv) (pg : Img)
    (p : Handlers.PatchOverlay)
    (hd : (env.decode p.patchImageBase64).isSome = true)
    (hb : Handlers.inBoundsB env pg.w pg.h p = false) :
    Handlers.applyPatch env pg p = .ok pg := by
  obtain ⟨i, hi⟩ := Option.isSome_iff_exists.1 hd
  have hcond := inBoundsB_false_cond env pg.w pg.h p i hi hb
  simp only [Handlers.applyPatch, hi]
  rw [if_pos hcond]

lemma applyPatch_inb (env : Handlers.MergeEnv) (pg : Img)
    (p : Handlers.PatchOverlay) (i : Img)
    (hi : env.decode p.patchImageBase64 = some i)
    (hb : Handlers.inBoundsB env pg.w pg.h p = true) :
    Handlers.applyPatch env pg p
      = .ok (Handlers.blendAt pg (Handlers.resizeStep env (Handlers.toBGRA i) p)
          (pyRound p.x).toNat (pyRound p.y).toNat) := by
  have hcond := inBoundsB_true_cond env pg.w pg.h p i hi hb
  simp only [Handlers.applyPatch, hi]
  rw [if_neg hcond]

lemma overlayLoop_filter (env : Handlers.MergeEnv) (W H : Nat)
    (ps : List Handlers.PatchOverlay)
    (hall : ∀ p ∈ ps, (env.decode p.patchImageBase64).isSome = true) :
    ∀ pg : Img, pg.w = W → pg.h = H →
      Handlers.overlayLoop env pg ps
        = Handlers.overlayLoop env pg
            (ps.filter (fun p => Handlers.inBoundsB env W H p)) := by
  induction ps with
  | nil => intro pg _ _; rfl
  | cons p ps ih =>
    intro pg hW hH
    have hd := hall p (List.mem_cons_self p ps)
    have hall2 := fun q hq => hall q (List.mem_cons_of_mem p hq)
    cases hb : Handlers.inBoundsB env W H p with
    | false =>
      rw [List.filter_cons_of_neg (by simp [hb])]
      have happ := applyPatch_oob env pg p hd (by rw [hW, hH]; exact hb)
      simp only [Handlers.overlayLoop, happ]
      exact ih hall2 pg hW hH
    | true =>
      rw [List.filter_cons_of_pos (by simp [hb])]
      obtain ⟨i, hi⟩ := Option.isSome_iff_exists.1 hd
      have happ := applyPatch_inb env pg p i hi (by rw [hW, hH]; exact hb)
      simp only [Handlers.overlayLoop, happ]
      exact ih hall2 _ hW hH

/-- C1 amended: provided the page and every overlay decode, the merge
completes and reports success, it equals the merge of only the in-bounds
overlays, and every overlay whose placed rectangle falls partially or
fully outside the page bounds is skipped, leaving the page it would have
covered unchanged. An overlay that fails to decode, however, aborts the
whole merge of this handler (see the counterexample). -/
theorem C1_skip_semantics (env : Handlers.MergeEnv)
    (req : Handlers.MergePatchesRequest) (page : Img)
    (hpage : env.decode req.pageImageBase64 = some page)
    (hall : ∀ p ∈ req.patches, (env.decode p.patchImageBase64).isSome = true) :
    (∃ m, Handlers.merge_core env req = .ok m) ∧
    Handlers.merge_core env req
      = Handlers.merge_core env
          ⟨req.pageImageBase64,
            req.patches.filter (fun p => Handlers.inBoundsB env page.w page.h p)⟩ ∧
    (∀ pg : Img, ∀ p : Handlers.PatchOverlay,
      (env.decode p.patchImageBase64).isSome = true →
      Handlers.inBoundsB env pg.w pg.h p = false →
      Handlers.applyPatch env pg p = .ok pg) := by
  refine ⟨?_, ?_, fun pg p hd hb => applyPatch_oob env pg p hd hb⟩
  · obtain ⟨m, hm⟩ := overlayLoop_isOk env req.patches hall (Handlers.toBGRA page)
    exact ⟨Handlers.bgra2bgr m, by simp only [Handlers.merge_core, hpage, hm]⟩
  · simp only [Handlers.merge_core, hpage]
    rw [overlayLoop_filter env page.w page.h req.patches hall (Handlers.toBGRA page)
      (toBGRA_w page) (toBGRA_h page)]

/-- A 1 by 1 black page. -/
def pageImg1 : Img := ⟨1, 1, 3, fun _ _ _ => 0⟩

/-- A merge environment in which only the page bytes decode. -/
def envBad : Handlers.MergeEnv :=
  ⟨fun s => if s = "P" then some pageImg1 else none, fun i _ _ => i⟩

/-- C1 counterexample: the page decodes, the single overlay does not, and
the merge handler reports a failure instead of skipping the overlay and
reporting success: a decode failure of one overlay is fatal to the whole
merge in this handler. -/
theorem C1_counterexample :
    Handlers.merge_core envBad ⟨"P", [⟨"bad", 0, 0, none, none⟩]⟩
      = .error Handlers.MergeErr.patchDecodeFailed ∧
    (envBad.decode "P").isSome = true := by
  exact ⟨rfl, rfl⟩

/-- A 1 by 1 patch image of constant value 9. -/
def patchImg9 : Img := ⟨1, 1, 3, fun _ _ _ => 9⟩

/-- A merge environment in which the page and the overlay both decode. -/
def envSkip : Handlers.MergeEnv :=
  ⟨fun s => if s = "P" then some pageImg1
    else if s = "Q" then some patchImg9 else none, fun i _ _ => i⟩

/-- The out-of-bounds overlay of the C1 witness, placed at x = 5. -/
def povQ : Handlers.PatchOverlay := ⟨"Q", ((5 : Int) : ℚ), ((0 : Int) : ℚ), none, none⟩

/-- A concrete run of the C1 amended theorem: an overlay placed at x = 5
on a 1 by 1 page decodes but lies out of bounds, so it is skipped, the
page region it would have covered is untouched, and the merge succeeds. -/
theorem C1_skip_semantics_witness :
    (∃ m, Handlers.merge_core envSkip ⟨"P", [povQ]⟩ = .ok m) ∧
    Handlers.applyPatch envSkip (Handlers.toBGRA pageImg1) povQ
      = .ok (Handlers.toBGRA pageImg1) := by
  have hall : ∀ p ∈ ([povQ] : List Handlers.PatchOverlay),
      (envSkip.decode p.patchImageBase64).isSome = true := by
    intro p hp
    rw [List.mem_singleton] at hp
    subst hp
    rfl
  have h := C1_skip_semantics envSkip ⟨"P", [povQ]⟩ pageImg1 rfl hall
  have hb : Handlers.inBoundsB envSkip 1 1 povQ = false := by
    have heff : Handlers.effPatch envSkip povQ
        = some (Handlers.toBGRA patchImg9) := rfl
    simp only [Handlers.inBoundsB, heff]
    rw [decide_eq_false_iff_not]
    intro hcon
    have h3 := hcon.2.2.1
    rw [show povQ.x = ((5 : Int) : ℚ) from rfl, pyRound_intCast] at h3
    rw [show (Handlers.toBGRA patchImg9).w = 1 from rfl] at h3
    omega
  exact ⟨h.1, h.2.2 (Handlers.toBGRA pageImg1) povQ rfl hb⟩

/-- The column the overlay corner is placed at, after the rounding of the
source. -/
def placeX (P : Handlers.PatchOverlay) : Nat := (pyRound P.x).toNat

/-- The row the overlay corner is placed at, after the rounding of the
source. -/
def placeY (P : Handlers.PatchOverlay) : Nat := (pyRound P.y).toNat

/-- The placed rectangle of an overlay whose effective patch image is
pimg: the pixels the alpha blend writes. -/
def inRegion (P : Handlers.PatchOverlay) (pimg : Img) (Y X : Nat) : Prop :=
  placeY P ≤ Y ∧ Y < placeY P + pimg.h ∧ placeX P ≤ X ∧ X < placeX P + pimg.w

/-- C3: for an overlay placed fully inside the page, every composited
color sample of the merge handler equals the alpha blend
alpha times patch plus one minus alpha times page, with alpha the patch
alpha sample over 255 and the uint8 truncation of the source; an alpha
sample of 255 replaces the page sample by the patch sample, an alpha
sample of 0 leaves the page sample unchanged, pixels outside the placed
rectangle are unchanged, and a decoded patch with no alpha channel and no
resize gets alpha 255 everywhere from the BGRA conversion. -/
theorem C3_alpha_blend (env : Handlers.MergeEnv) (P : Handlers.PatchOverlay)
    (pageStr : String) (page pimg i : Img)
    (hpage : env.decode pageStr = some page)
    (hdec : env.decode P.patchImageBase64 = some i)
    (hpimg : pimg = Handlers.resizeStep env (Handlers.toBGRA i) P)
    (hx : 0 ≤ pyRound P.x) (hy : 0 ≤ pyRound P.y)
    (hxw : pyRound P.x + (pimg.w : Int) ≤ (page.w : Int))
    (hyh : pyRound P.y + (pimg.h : Int) ≤ (page.h : Int)) :
    ∃ m, Handlers.merge_core env ⟨pageStr, [P]⟩ = .ok m ∧
      (∀ Y X ch, ch < 3 → inRegion P pimg Y X →
        m.pix Y X ch =
          (pimg.pix (Y - placeY P) (X - placeX P) 3 *
             pimg.pix (Y - placeY P) (X - placeX P) ch +
           (255 - pimg.pix (Y - placeY P) (X - placeX P) 3) *
             page.pix Y X ch) / 255) ∧
      (∀ Y X ch, ch < 3 → inRegion P pimg Y X →
        pimg.pix (Y - placeY P) (X - placeX P) 3 = 255 →
        m.pix Y X ch = pimg.pix (Y - placeY P) (X - placeX P) ch) ∧
      (∀ Y X ch, ch < 3 → inRegion P pimg Y X →
        pimg.pix (Y - placeY P) (X - placeX P) 3 = 0 →
        m.pix Y X ch = page.pix Y X ch) ∧
      (∀ Y X ch, ch < 3 → ¬inRegion P pimg Y X →
        m.pix Y X ch = page.pix Y X ch) ∧
      (i.c = 3 → P.width = none → ∀ yy xx, pimg.pix yy xx 3 = 255) := by
  have hcond : ¬(pyRound P.x < 0 ∨ pyRound P.y < 0 ∨
      pyRound P.x + ((Handlers.resizeStep env (Handlers.toBGRA i) P).w : Int)
        > ((Handlers.toBGRA page).w : Int) ∨
      pyRound P.y + ((Handlers.resizeStep env (Handlers.toBGRA i) P).h : Int)
        > ((Handlers.toBGRA page).h : Int)) := by
    rw [toBGRA_w, toBGRA_h, ← hpimg]
    omega
  have happ : Handlers.applyPatch env (Handlers.toBGRA page) P
      = .ok (Handlers.blendAt (Handlers.toBGRA page) pimg (placeX P) (placeY P)) := by
    simp only [Handlers.applyPatch, hdec]
    rw [if_neg hcond, ← hpimg]
    rfl
  refine ⟨Handlers.bgra2bgr
      (Handlers.blendAt (Handlers.toBGRA page) pimg (placeX P) (placeY P)),
    ?_, ?_, ?_, ?_, ?_, ?_⟩
  · simp only [Handlers.merge_core, hpage, Handlers.overlayLoop, happ]
  · intro Y X ch hch hreg
    show (Handlers.blendAt (Handlers.toBGRA page) pimg (placeX P) (placeY P)).pix Y X ch = _
    unfold Handlers.blendAt
    simp only
    rw [if_pos ⟨hreg.1, hreg.2.1, hreg.2.2.1, hreg.2.2.2, by omega⟩,
      toBGRA_pix_color page Y X ch (by omega)]
  · intro Y X ch hch hreg ha
    show (Handlers.blendAt (Handlers.toBGRA page) pimg (placeX P) (placeY P)).pix Y X ch = _
    unfold Handlers.blendAt
    simp only
    rw [if_pos ⟨hreg.1, hreg.2.1, hreg.2.2.1, hreg.2.2.2, by omega⟩, ha,
      Nat.sub_self, Nat.zero_mul, Nat.add_zero, Nat.mul_div_cancel_left _ (by norm_num)]
  · intro Y X ch hch hreg ha
    show (Handlers.blendAt (Handlers.toBGRA page) pimg (placeX P) (placeY P)).pix Y X ch = _
    unfold Handlers.blendAt
    simp only
    rw [if_pos ⟨hreg.1, hreg.2.1, hreg.2.2.1, hreg.2.2.2, by omega⟩, ha,
      Nat.zero_mul, Nat.zero_add, Nat.sub_zero,
      toBGRA_pix_color page Y X ch (by omega),
      Nat.mul_div_cancel_left _ (by norm_num)]
  · intro Y X ch hch hreg
    show (Handlers.blendAt (Handlers.toBGRA page) pimg (placeX P) (placeY P)).pix Y X ch = _
    unfold Handlers.blendAt
    simp only
    rw [if_neg (fun hc => hreg ⟨hc.1, hc.2.1, hc.2.2.1, hc.2.2.2.1⟩),
      toBGRA_pix_color page Y X ch (by omega)]
  · intro hc3 hwnone yy xx
    rw [hpimg]
    unfold Handlers.resizeStep
    rw [hwnone]
    unfold Handlers.toBGRA
    rw [if_pos hc3]
    simp

/-- A 2 by 2 solid blue page in BGR layout. -/
def pageBlue : Img := ⟨2, 2, 3, fun _ _ ch => if ch = 0 then 255 else 0⟩

/-- A 2 by 2 fully opaque solid red patch in BGRA layout. -/
def patchRed : Img :=
  ⟨2, 2, 4, fun _ _ ch => if ch = 2 then 255 else if ch = 3 then 255 else 0⟩

/-- A merge environment decoding the blue page and the red patch. -/
def envBlend : Handlers.MergeEnv :=
  ⟨fun s => if s = "page" then some pageBlue
    else if s = "patch" then some patchRed else none, fun i _ _ => i⟩

/-- The red overlay placed at the origin. -/
def povRed : Handlers.PatchOverlay :=
  ⟨"patch", ((0 : Int) : ℚ), ((0 : Int) : ℚ), none, none⟩

/-- A concrete run of the C3 theorem: blending the fully opaque 2 by 2
red patch at the origin onto the 2 by 2 blue page yields a fully red
result, the red channel 255 and the blue channel 0 at the corners. -/
theorem C3_alpha_blend_witness :
    ∃ m, Handlers.merge_core envBlend ⟨"page", [povRed]⟩ = .ok m ∧
      m.pix 0 0 2 = 255 ∧ m.pix 1 1 2 = 255 ∧ m.pix 0 0 0 = 0 := by
  have h0 : pyRound ((0 : Int) : ℚ) = 0 := pyRound_intCast 0
  have hplX : placeX povRed = 0 := by
    unfold placeX
    rw [show povRed.x = ((0 : Int) : ℚ) from rfl, h0]
    rfl
  have hplY : placeY povRed = 0 := by
    unfold placeY
    rw [show povRed.y = ((0 : Int) : ℚ) from rfl, h0]
    rfl
  have hreg : ∀ Y X, Y < 2 → X < 2 → inRegion povRed patchRed Y X := by
    intro Y X hY hX
    unfold inRegion
    rw [hplX, hplY, show patchRed.h = 2 from rfl, show patchRed.w = 2 from rfl]
    omega
  have hx : (0 : Int) ≤ pyRound povRed.x := by
    rw [show povRed.x = ((0 : Int) : ℚ) from rfl, h0]
  have hy : (0 : Int) ≤ pyRound povRed.y := by
    rw [show povRed.y = ((0 : Int) : ℚ) from rfl, h0]
  have hxw : pyRound povRed.x + (patchRed.w : Int) ≤ (pageBlue.w : Int) := by
    rw [show povRed.x = ((0 : Int) : ℚ) from rfl, h0,
      show patchRed.w = 2 from rfl, show pageBlue.w = 2 from rfl]
    omega
  have hyh : pyRound povRed.y + (patchRed.h : Int) ≤ (pageBlue.h : Int) := by
    rw [show povRed.y = ((0 : Int) : ℚ) from rfl, h0,
      show patchRed.h = 2 from rfl, show pageBlue.h = 2 from rfl]
    omega
  obtain ⟨m, hok, hgen, hopq, htr, hout, halpha⟩ :=
    C3_alpha_blend envBlend povRed "page" pageBlue patchRed patchRed
      rfl rfl rfl hx hy hxw hyh
  refine ⟨m, hok, ?_, ?_, ?_⟩
  · exact (hopq 0 0 2 (by norm_num) (hreg 0 0 (by norm_num) (by norm_num)) rfl).trans rfl
  · exact (hopq 1 1 2 (by norm_num) (hreg 1 1 (by norm_num) (by norm_num)) rfl).trans rfl
  · exact (hopq 0 0 0 (by norm_num) (hreg 0 0 (by norm_num) (by norm_num)) rfl).trans rfl

/-- C8: with alpha_background true, cleaning is skipped entirely and the
generate-patch handler starts from a 4-channel all-zero image of the
region size; the returned patch has the region size, 4 channels, and is
all zero, in particular fully transparent, at every pixel the text
drawing did not touch. The text drawing and its pixel coverage are the
external PIL collaborator, assumed to leave untouched pixels unchanged. -/
theorem C8_alpha_background (env : PatchEnv) (req : PatchReq) (page : Img)
    (hpage : env.decode req.capturedImage = some page)
    (halpha : req.alphaBackground = true)
    (hfont : env.fexists (font_paths req.fontType) = true)
    (hrender : ∀ f im y x ch, env.drawn y x = false →
      (env.renderRGBA f im).pix y x ch = im.pix y x ch)
    (hrdims : ∀ f im, (env.renderRGBA f im).h = im.h ∧
      (env.renderRGBA f im).w = im.w ∧ (env.renderRGBA f im).c = im.c) :
    composedBase env req page = .ok (zeros4 page.h page.w) ∧
    ∃ patchImg, generate_patch env req = .ok (patchImg, page.w, page.h) ∧
      patchImg.h = page.h ∧ patchImg.w = page.w ∧ patchImg.c = 4 ∧
      ∀ y x ch, env.drawn y x = false → patchImg.pix y x ch = 0 := by
  have hbase : composedBase env req page = .ok (zeros4 page.h page.w) := by
    unfold composedBase
    rw [halpha]
    rfl
  obtain ⟨f, hfsel⟩ :=
    selectFontRGBA_ok env.fexists env.ttOk req.fontType req.fontSize hfont
  refine ⟨hbase, env.renderRGBA f (zeros4 page.h page.w), ?_, ?_, ?_, ?_, ?_⟩
  · unfold generate_patch
    rw [hpage]
    simp only [hbase, hfsel]
    rfl
  · exact (hrdims f (zeros4 page.h page.w)).1
  · exact (hrdims f (zeros4 page.h page.w)).2.1
  · exact (hrdims f (zeros4 page.h page.w)).2.2
  · intro y x ch hd
    rw [hrender f (zeros4 page.h page.w) y x ch hd]
    rfl

/-- A concrete run of the C8 theorem: an alpha-background request over
the 3 by 5 region yields a 4-channel all-transparent patch of size
3 by 5. -/
theorem C8_alpha_background_witness :
    ∃ patchImg, generate_patch envIdent
        ⟨"img", [], 24, "regular", "#000000", none, 0, none, true, 200⟩
      = .ok (patchImg, 5, 3) ∧
      patchImg.h = 3 ∧ patchImg.w = 5 ∧ patchImg.c = 4 ∧ patchImg.pix 0 0 3 = 0 := by
  obtain ⟨hbase, patchImg, hok, hh, hw, hc, hz⟩ :=
    C8_alpha_background envIdent
      ⟨"img", [], 24, "regular", "#000000", none, 0, none, true, 200⟩
      ⟨3, 5, 3, fun _ _ _ => 255⟩ rfl rfl rfl
      (fun _ _ _ _ _ _ => rfl) (fun _ _ => ⟨rfl, rfl, rfl⟩)
  exact ⟨patchImg, hok, hh, hw, hc, hz 0 0 3 rfl⟩

/-- C7: with a polygon of at least 3 points supplied (and no alpha
background, a mode only the request model of the unregistered handler
even has), the generate-patch endpoint of server.py builds a
single-channel mask that is 255 exactly where the fill of the rounded
polygon covers and 0 elsewhere, and composes the 4-channel image whose
alpha channel is that mask and whose color channels are the cleaned
region; the returned patch keeps this alpha and these colors at every
pixel the text drawing did not touch, and has the region size. The fill
coverage of cv2.fillPoly, the cleaner backend and the PIL text drawing
are the external collaborator parameters of the embedding. -/
theorem C7_polygon_mask (env : PatchEnv) (req : SrvPatchReq) (page : Img)
    (pts : List (ℚ × ℚ))
    (hpage : env.decode req.capturedImage = some page)
    (hpts : req.polygonPoints = some pts)
    (hlen : 3 ≤ pts.length)
    (hfont : env.fexists (font_paths req.fontType) = true)
    (hcdims : (clean_text_region env env.text_cleaner page).h = page.h ∧
      (clean_text_region env env.text_cleaner page).w = page.w)
    (hrender : ∀ f im y x ch, env.drawn y x = false →
      (env.renderRGBA f im).pix y x ch = im.pix y x ch)
    (hrdims : ∀ f im, (env.renderRGBA f im).h = im.h ∧
      (env.renderRGBA f im).w = im.w ∧ (env.renderRGBA f im).c = im.c) :
    (∀ y x, polygonMask env pts y x
      = if env.fillPoly (roundPts pts) y x then 255 else 0) ∧
    (compose4 (clean_text_region env env.text_cleaner page)
      (polygonMask env pts)).c = 4 ∧
    (compose4 (clean_text_region env env.text_cleaner page)
      (polygonMask env pts)).h = page.h ∧
    (compose4 (clean_text_region env env.text_cleaner page)
      (polygonMask env pts)).w = page.w ∧
    (∀ y x, (compose4 (clean_text_region env env.text_cleaner page)
      (polygonMask env pts)).pix y x 3 = polygonMask env pts y x) ∧
    (∀ y x ch, ch < 3 →
      (compose4 (clean_text_region env env.text_cleaner page)
        (polygonMask env pts)).pix y x ch
      = (clean_text_region env env.text_cleaner page).pix y x ch) ∧
    ∃ patchImg, server_generate_patch env req = .ok (patchImg, page.w, page.h) ∧
      patchImg.c = 4 ∧ patchImg.h = page.h ∧ patchImg.w = page.w ∧
      ∀ y x, env.drawn y x = false →
        patchImg.pix y x 3 = polygonMask env pts y x ∧
        ∀ ch, ch < 3 → patchImg.pix y x ch
          = (clean_text_region env env.text_cleaner page).pix y x ch := by
  obtain ⟨f, hfsel⟩ :=
    selectFontRGBA_ok env.fexists env.ttOk req.fontType req.fontSize hfont
  refine ⟨fun y x => rfl, rfl, hcdims.1, hcdims.2, fun y x => rfl, ?_, ?_⟩
  · intro y x ch hch
    show (if ch = 3 then _ else if ch < 3 then _ else 0) = _
    rw [if_neg (by omega), if_pos hch]
  · refine ⟨env.renderRGBA f
      (compose4 (clean_text_region env env.text_cleaner page) (polygonMask env pts)),
      ?_, ?_, ?_, ?_, ?_⟩
    · unfold server_generate_patch
      rw [hpage]
      simp only [hpts, if_pos hlen, hfsel]
    · rw [(hrdims f _).2.2]
      rfl
    · rw [(hrdims f _).1]
      exact hcdims.1
    · rw [(hrdims f _).2.1]
      exact hcdims.2
    · intro y x hd
      constructor
      · rw [hrender f _ y x 3 hd]
        rfl
      · intro ch hch
        rw [hrender f _ y x ch hd]
        show (if ch = 3 then _ else if ch < 3 then _ else 0) = _
        rw [if_neg (by omega), if_pos hch]

/-- A concrete run of the C7 theorem: the polygon request over the 3 by 5
region yields a 4-channel patch whose alpha at the origin is 255 (the
fill of envIdent covers the origin) and whose alpha at (2, 4) is 0, with
the color channels equal to the cleaned region. -/
theorem C7_polygon_mask_witness :
    ∃ patchImg, server_generate_patch envIdent srvTriReq
      = .ok (patchImg, 5, 3) ∧
      patchImg.c = 4 ∧ patchImg.pix 0 0 3 = 255 ∧ patchImg.pix 2 4 3 = 0 := by
  have hcd : (clean_text_region envIdent envIdent.text_cleaner
        ⟨3, 5, 3, fun _ _ _ => 255⟩).h = 3 ∧
      (clean_text_region envIdent envIdent.text_cleaner
        ⟨3, 5, 3, fun _ _ _ => 255⟩).w = 5 := ⟨rfl, rfl⟩
  obtain ⟨hmask, hc, hh, hw, half, hcol, patchImg, hok, hc4, hph, hpw, hpx⟩ :=
    C7_polygon_mask envIdent srvTriReq
      ⟨3, 5, 3, fun _ _ _ => 255⟩ triPts rfl rfl (by norm_num [triPts]) rfl hcd
      (fun _ _ _ _ _ _ => rfl) (fun _ _ => ⟨rfl, rfl, rfl⟩)
  refine ⟨patchImg, hok, hc4, ?_, ?_⟩
  · rw [(hpx 0 0 rfl).1, hmask 0 0]
    rfl
  · rw [(hpx 2 4 rfl).1, hmask 2 4]
    rfl

end MangaReader
